import Mathlib

/-!
Verification development for the soros-backend treasury ledger.

The definitions below are a shallow embedding of the treasury service
(`src/services/treasury.service.ts`) together with the mongoose schema
validators that participate in every commit (`src/db/schema.ts`):

* Monetary amounts are modelled as rationals (the source uses JS numbers
  for decimal amounts; the claims are about the exact arithmetic).
* Mongo `ObjectId`s are modelled as natural numbers; the unique index on
  `Treasury.strategyId` means the strategy id acts as the treasury key.
* A mongoose session (`startSession`/`commitTransaction`/`abortTransaction`)
  is modelled by each operation returning `Except`: on `.ok` the new
  `LedgerState` holds all writes of the session, on `.error` nothing is
  written (the session aborted).
* `document.save()` and `Model.create()` run the schema validators; the
  numeric validators (`min: 0` bounds on the treasury balances and on
  `balanceBefore`/`balanceAfter`, and `amount ≠ 0` on transactions) are
  modelled by `Treasury.saveValid` / `Transaction.createValid`; a failing
  validator raises, which aborts the session (`validationFailed`).
  String-format validators (hex addresses and tx hashes) and the free-text
  `description`/`metadata` fields are elided: no claim mentions them.
-/

namespace Soros

/-- Transaction kinds, `TransactionType` in `treasury.service.ts`. -/
inductive TxType where
  | DEPOSIT
  | WITHDRAW
  | TRADE_OPEN
  | TRADE_CLOSE
  | PROFIT
  | LOSS
  | REFUND
  | ADJUSTMENT
  deriving DecidableEq, Repr

/-- Transaction statuses, `TransactionStatus` in `treasury.service.ts`. -/
inductive TxStatus where
  | PENDING
  | COMPLETED
  | FAILED
  | REVERSED
  deriving DecidableEq, Repr

/-- Balance Record, `treasurySchema` in `src/db/schema.ts`. -/
structure Treasury where
  strategyId : Nat
  userId : Nat
  totalDeposited : ℚ
  totalWithdrawn : ℚ
  availableBalance : ℚ
  lockedBalance : ℚ
  totalProfits : ℚ
  totalLosses : ℚ
  netProfitLoss : ℚ
  contractAddress : String
  lastDepositTxHash : Option String := none
  lastWithdrawTxHash : Option String := none
  deriving DecidableEq, Repr

/-- Transaction Record, `transactionSchema` in `src/db/schema.ts`.
The `treasuryId` linkage is the `strategyId` key (unique index), and the
free-text `description`/`metadata` fields are elided. -/
structure Transaction where
  userId : Nat
  strategyId : Nat
  type : TxType
  amount : ℚ
  balanceBefore : ℚ
  balanceAfter : ℚ
  tradeId : Option Nat := none
  txHash : Option String := none
  status : TxStatus
  deriving DecidableEq, Repr

/-- The numeric mongoose validators on `treasurySchema`: every cumulative
and balance field carries `min: [0, ...]` (schema.ts lines 459-494).
They run when the document is saved inside the session. -/
def Treasury.saveValid (t : Treasury) : Prop :=
  0 ≤ t.totalDeposited ∧ 0 ≤ t.totalWithdrawn ∧ 0 ≤ t.availableBalance ∧
  0 ≤ t.lockedBalance ∧ 0 ≤ t.totalProfits ∧ 0 ≤ t.totalLosses

instance (t : Treasury) : Decidable t.saveValid := by
  unfold Treasury.saveValid
  infer_instance

/-- The numeric mongoose validators on `transactionSchema`: `amount`
must be nonzero and the `balanceBefore`/`balanceAfter` snapshots carry
`min: [0, ...]` (schema.ts lines 607-626). They run at `Transaction.create`. -/
def Transaction.createValid (tx : Transaction) : Prop :=
  tx.amount ≠ 0 ∧ 0 ≤ tx.balanceBefore ∧ 0 ≤ tx.balanceAfter

instance (tx : Transaction) : Decidable tx.createValid := by
  unfold Transaction.createValid
  infer_instance

/-- Errors thrown by the service: one constructor per distinct
`throw new Error(...)` site, plus `validationFailed` for a mongoose
`ValidationError` raised by `save`/`create` inside the session. -/
inductive TreasuryError where
  | invalidAmount
  | treasuryNotFound
  | insufficientBalance
  | strategyNotFound
  | negativeBalance
  | unsupportedType
  | validationFailed
  deriving DecidableEq, Repr

/-- `BalanceAdjustmentOptions` of `adjustBalance` (text fields elided). -/
structure AdjustOptions where
  amount : ℚ
  type : TxType
  tradeId : Option Nat := none
  txHash : Option String := none
  deriving DecidableEq, Repr

/-- A row of the `Strategy` collection, reduced to the ownership data the
treasury service consults (`Strategy.findOne({ _id, userId })`). -/
structure StrategyRec where
  id : Nat
  userId : Nat
  deriving DecidableEq, Repr

/-- The persistent store: the `Strategy`, `Treasury` and `Transaction`
collections, as far as the treasury service touches them. -/
structure LedgerState where
  strategies : List StrategyRec
  treasuries : List Treasury
  transactions : List Transaction
  deriving DecidableEq, Repr

/-- The treasury document created with all cumulative fields at zero
(`initializeTreasury` / the implicit-create branch of `deposit`). -/
def freshTreasury (strategyId userId : Nat) (contractAddress : String) : Treasury :=
  { strategyId := strategyId, userId := userId,
    totalDeposited := 0, totalWithdrawn := 0,
    availableBalance := 0, lockedBalance := 0,
    totalProfits := 0, totalLosses := 0, netProfitLoss := 0,
    contractAddress := contractAddress }

/-- `Treasury.findOne({ strategyId })`: lookup scoped by strategy alone
(used by `initializeTreasury` and `deposit`). -/
def LedgerState.findTreasury (s : LedgerState) (strategyId : Nat) : Option Treasury :=
  s.treasuries.find? (fun t => t.strategyId == strategyId)

/-- `Treasury.findOne({ strategyId, userId })`: lookup scoped by both
strategy and owner (used by `withdraw` and `adjustBalance`). -/
def LedgerState.findTreasuryOwned (s : LedgerState) (strategyId userId : Nat) :
    Option Treasury :=
  s.treasuries.find? (fun t => t.strategyId == strategyId && t.userId == userId)

/-- `treasury.save()`: replace the stored record, keyed by the unique
`strategyId` index. -/
def saveTreasury (ts : List Treasury) (t : Treasury) : List Treasury :=
  ts.map (fun u => if u.strategyId == t.strategyId then t else u)

/-- `initializeTreasury` (treasury.service.ts lines 59-108): return the
existing record if one exists for the strategy, otherwise verify strategy
ownership and create a zeroed treasury. -/
def initializeTreasury (s : LedgerState) (strategyId userId : Nat)
    (contractAddress : String) : Except TreasuryError (LedgerState × Treasury) :=
  match s.findTreasury strategyId with
  | some existing => .ok (s, existing)
  | none =>
    if s.strategies.any (fun st => st.id == strategyId && st.userId == userId) then
      let t := freshTreasury strategyId userId contractAddress
      .ok ({ s with treasuries := s.treasuries ++ [t] }, t)
    else
      .error .strategyNotFound

/-- `deposit` (treasury.service.ts lines 114-215): validate positivity,
find the treasury by `strategyId` (creating a zeroed one in the session if
absent), credit `totalDeposited`/`availableBalance`, save, and append a
COMPLETED `DEPOSIT` transaction; commit, or abort on any error. -/
def deposit (s : LedgerState) (strategyId userId : Nat) (amount : ℚ)
    (txHash contractAddress : String) :
    Except TreasuryError (LedgerState × Treasury × Transaction) :=
  if amount ≤ 0 then .error .invalidAmount
  else
    let found := s.findTreasury strategyId
    let t := found.getD (freshTreasury strategyId userId contractAddress)
    let balanceBefore := t.availableBalance
    let t' := { t with totalDeposited := t.totalDeposited + amount,
                       availableBalance := t.availableBalance + amount,
                       lastDepositTxHash := some txHash }
    if t'.saveValid then
      let tx : Transaction :=
        { userId := userId, strategyId := strategyId, type := .DEPOSIT,
          amount := amount, balanceBefore := balanceBefore,
          balanceAfter := t'.availableBalance, txHash := some txHash,
          status := .COMPLETED }
      if tx.createValid then
        match found with
        | some _ =>
          .ok ({ s with treasuries := saveTreasury s.treasuries t',
                        transactions := s.transactions ++ [tx] }, t', tx)
        | none =>
          .ok ({ s with treasuries := s.treasuries ++ [t'],
                        transactions := s.transactions ++ [tx] }, t', tx)
      else .error .validationFailed
    else .error .validationFailed

/-- `withdraw` (treasury.service.ts lines 221-312): validate positivity,
find the treasury by `strategyId` and `userId`, reject when
`availableBalance < amount`, debit, save, and append a `WITHDRAW`
transaction with the negated amount, COMPLETED when a tx hash is supplied
and PENDING otherwise; commit, or abort on any error. -/
def withdraw (s : LedgerState) (strategyId userId : Nat) (amount : ℚ)
    (hash : Option String) :
    Except TreasuryError (LedgerState × Treasury × Transaction) :=
  if amount ≤ 0 then .error .invalidAmount
  else
    match s.findTreasuryOwned strategyId userId with
    | none => .error .treasuryNotFound
    | some t =>
      if t.availableBalance < amount then .error .insufficientBalance
      else
        let t' := { t with totalWithdrawn := t.totalWithdrawn + amount,
                           availableBalance := t.availableBalance - amount,
                           lastWithdrawTxHash :=
                             if hash.isSome then hash else t.lastWithdrawTxHash }
        if t'.saveValid then
          let tx : Transaction :=
            { userId := userId, strategyId := strategyId, type := .WITHDRAW,
              amount := -amount, balanceBefore := t.availableBalance,
              balanceAfter := t'.availableBalance, txHash := hash,
              status := if hash.isSome then .COMPLETED else .PENDING }
          if tx.createValid then
            .ok ({ s with treasuries := saveTreasury s.treasuries t',
                          transactions := s.transactions ++ [tx] }, t', tx)
          else .error .validationFailed
        else .error .validationFailed

/-- The `switch (type)` block of `adjustBalance` (treasury.service.ts
lines 351-396): the balance-field update applied for each kind. Every
kind except `ADJUSTMENT` applies `Math.abs(amount)`. -/
def applyAdjustment (t : Treasury) (amount : ℚ) (ty : TxType) :
    Except TreasuryError Treasury :=
  match ty with
  | .TRADE_OPEN =>
    if t.availableBalance < |amount| then .error .insufficientBalance
    else .ok { t with availableBalance := t.availableBalance - |amount|,
                      lockedBalance := t.lockedBalance + |amount| }
  | .TRADE_CLOSE =>
    .ok { t with lockedBalance := t.lockedBalance - |amount|,
                 availableBalance := t.availableBalance + |amount| }
  | .PROFIT =>
    let profits := t.totalProfits + |amount|
    .ok { t with totalProfits := profits,
                 availableBalance := t.availableBalance + |amount|,
                 netProfitLoss := profits - t.totalLosses }
  | .LOSS =>
    let losses := t.totalLosses + |amount|
    .ok { t with totalLosses := losses,
                 availableBalance := t.availableBalance - |amount|,
                 netProfitLoss := t.totalProfits - losses }
  | .REFUND =>
    .ok { t with availableBalance := t.availableBalance + |amount| }
  | .ADJUSTMENT =>
    let b := t.availableBalance + amount
    if b < 0 then .error .negativeBalance
    else .ok { t with availableBalance := b }
  | _ => .error .unsupportedType

/-- `adjustBalance` (treasury.service.ts lines 318-447): reject a zero
amount, find the treasury by `strategyId` and `userId`, apply the
kind-specific update, save, and append a COMPLETED transaction carrying
the caller-supplied `options.amount`; commit, or abort on any error. -/
def adjustBalance (s : LedgerState) (strategyId userId : Nat)
    (opts : AdjustOptions) :
    Except TreasuryError (LedgerState × Treasury × Transaction) :=
  if opts.amount = 0 then .error .invalidAmount
  else
    match s.findTreasuryOwned strategyId userId with
    | none => .error .treasuryNotFound
    | some t =>
      match applyAdjustment t opts.amount opts.type with
      | .error e => .error e
      | .ok t' =>
        if t'.saveValid then
          let tx : Transaction :=
            { userId := userId, strategyId := strategyId, type := opts.type,
              amount := opts.amount, balanceBefore := t.availableBalance,
              balanceAfter := t'.availableBalance, tradeId := opts.tradeId,
              txHash := opts.txHash, status := .COMPLETED }
          if tx.createValid then
            .ok ({ s with treasuries := saveTreasury s.treasuries t',
                          transactions := s.transactions ++ [tx] }, t', tx)
          else .error .validationFailed
        else .error .validationFailed

/-- The four health statuses of `getTreasuryHealth`. -/
inductive HealthStatus where
  | HEALTHY
  | WARNING
  | CRITICAL
  | EMPTY
  deriving DecidableEq, Repr

/-- The status derivation of `getTreasuryHealth`
(src/lib/treasury.utils.ts lines 159-182) on a found treasury. -/
def getTreasuryHealthStatus (t : Treasury) : HealthStatus :=
  let totalBalance := t.availableBalance + t.lockedBalance
  let utilizationRate : ℚ :=
    if 0 < totalBalance then t.lockedBalance / totalBalance * 100 else 0
  if totalBalance = 0 then .EMPTY
  else if t.availableBalance < 10 then .CRITICAL
  else if 80 < utilizationRate then .WARNING
  else .HEALTHY

/-- One invocation of a treasury operation, for reasoning about
sequences of operations against the store. -/
inductive TreasuryOp where
  | init (strategyId userId : Nat) (contractAddress : String)
  | dep (strategyId userId : Nat) (amount : ℚ) (txHash contractAddress : String)
  | wd (strategyId userId : Nat) (amount : ℚ) (hash : Option String)
  | adj (strategyId userId : Nat) (opts : AdjustOptions)

/-- Run one operation against the store: on success the committed state,
on any error the unchanged state (the session aborted). -/
def applyOp (s : LedgerState) (op : TreasuryOp) : LedgerState :=
  match op with
  | .init sid uid addr =>
    match initializeTreasury s sid uid addr with
    | .ok (s', _) => s'
    | .error _ => s
  | .dep sid uid a h addr =>
    match deposit s sid uid a h addr with
    | .ok (s', _, _) => s'
    | .error _ => s
  | .wd sid uid a h =>
    match withdraw s sid uid a h with
    | .ok (s', _, _) => s'
    | .error _ => s
  | .adj sid uid opts =>
    match adjustBalance s sid uid opts with
    | .ok (s', _, _) => s'
    | .error _ => s

/-- Run a sequence of operations against the store. -/
def runOps (s : LedgerState) (ops : List TreasuryOp) : LedgerState :=
  ops.foldl applyOp s

/-- The derived-field invariant of the Balance Record:
`netProfitLoss = totalProfits - totalLosses`. -/
def Treasury.netPLDerived (t : Treasury) : Prop :=
  t.netProfitLoss = t.totalProfits - t.totalLosses

instance (t : Treasury) : Decidable t.netPLDerived := by
  unfold Treasury.netPLDerived
  infer_instance

example : (freshTreasury 1 10 "0xa").netPLDerived := by
  simp [freshTreasury, Treasury.netPLDerived]

/-! ### Helper lemmas about the store primitives -/

theorem find?_append_of_none {α : Type} (p : α → Bool) (l₁ l₂ : List α)
    (h : l₁.find? p = none) : (l₁ ++ l₂).find? p = l₂.find? p := by
  induction l₁ with
  | nil => rfl
  | cons x xs ih =>
    rw [List.find?_cons] at h
    rcases hx : p x with _ | _
    · rw [List.cons_append, List.find?_cons, hx]
      exact ih (by rwa [hx] at h)
    · rw [hx] at h
      exact absurd h (by simp)

theorem mem_saveTreasury {ts : List Treasury} {t u : Treasury}
    (hu : u ∈ saveTreasury ts t) : u = t ∨ u ∈ ts := by
  unfold saveTreasury at hu
  rcases List.mem_map.mp hu with ⟨v, hv, heq⟩
  by_cases hm : v.strategyId == t.strategyId
  · rw [if_pos hm] at heq
    exact Or.inl heq.symm
  · rw [if_neg hm] at heq
    exact Or.inr (heq ▸ hv)

theorem findOwned_saveTreasury (ts : List Treasury) (t₁ : Treasury)
    (sid uid : Nat) (hsid : t₁.strategyId = sid) (huid : t₁.userId = uid)
    (h : ∃ u ∈ ts, u.strategyId = sid) :
    (saveTreasury ts t₁).find?
      (fun u => u.strategyId == sid && u.userId == uid) = some t₁ := by
  induction ts with
  | nil => simp at h
  | cons v vs ih =>
    unfold saveTreasury
    rw [List.map_cons]
    by_cases hm : v.strategyId = t₁.strategyId
    · rw [if_pos (by simp [hm])]
      simp [List.find?_cons, hsid, huid]
    · rw [if_neg (by simp [hm])]
      rw [List.find?_cons]
      rcases hpv : (v.strategyId == sid && v.userId == uid) with _ | _
      · rcases h with ⟨u, hu, hus⟩
        rcases List.mem_cons.mp hu with rfl | hu'
        · exact absurd (hus.trans hsid.symm) hm
        · exact ih ⟨u, hu', hus⟩
      · simp only [Bool.and_eq_true, beq_iff_eq] at hpv
        exact absurd (hpv.1.trans hsid.symm) hm

theorem findTreasuryOwned_ids {s : LedgerState} {sid uid : Nat} {t : Treasury}
    (h : s.findTreasuryOwned sid uid = some t) :
    t.strategyId = sid ∧ t.userId = uid ∧ t ∈ s.treasuries := by
  unfold LedgerState.findTreasuryOwned at h
  have hp := List.find?_some h
  simp only [Bool.and_eq_true, beq_iff_eq] at hp
  exact ⟨hp.1, hp.2, List.mem_of_find?_eq_some h⟩

/-! ### Concrete fixtures used by witnesses and counterexamples -/

/-- A valid treasury for strategy 1 owned by user 10, funded with 100. -/
def sampleTreasury : Treasury :=
  { freshTreasury 1 10 "0xaaa" with totalDeposited := 100, availableBalance := 100 }

/-- A store holding strategy 1 (owned by user 10) and its funded treasury. -/
def sampleState : LedgerState :=
  { strategies := [{ id := 1, userId := 10 }],
    treasuries := [sampleTreasury],
    transactions := [] }

/-! ### Claim theorems -/

/-- C9: `getTreasuryHealth` returns EMPTY exactly when
`availableBalance + lockedBalance` is zero; otherwise CRITICAL when
`availableBalance` is below the fixed minimum-operating threshold (10);
otherwise WARNING when `lockedBalance / (availableBalance + lockedBalance)`
exceeds 80%; otherwise HEALTHY. -/
theorem getTreasuryHealth_status_spec (t : Treasury) (hv : t.saveValid) :
    (getTreasuryHealthStatus t = .EMPTY ↔
      t.availableBalance + t.lockedBalance = 0) ∧
    (getTreasuryHealthStatus t = .CRITICAL ↔
      t.availableBalance + t.lockedBalance ≠ 0 ∧ t.availableBalance < 10) ∧
    (getTreasuryHealthStatus t = .WARNING ↔
      t.availableBalance + t.lockedBalance ≠ 0 ∧ 10 ≤ t.availableBalance ∧
      80 / 100 < t.lockedBalance / (t.availableBalance + t.lockedBalance)) ∧
    (getTreasuryHealthStatus t = .HEALTHY ↔
      t.availableBalance + t.lockedBalance ≠ 0 ∧ 10 ≤ t.availableBalance ∧
      t.lockedBalance / (t.availableBalance + t.lockedBalance) ≤ 80 / 100) := by
  obtain ⟨-, -, ha, hl, -, -⟩ := hv
  have h100 : (0 : ℚ) < 100 := by norm_num
  simp only [getTreasuryHealthStatus]
  by_cases h0 : t.availableBalance + t.lockedBalance = 0
  · rw [if_pos h0]
    exact ⟨by simp [h0], by simp [h0], by simp [h0], by simp [h0]⟩
  · have hpos : 0 < t.availableBalance + t.lockedBalance :=
      lt_of_le_of_ne (by linarith) (Ne.symm h0)
    rw [if_neg h0, if_pos hpos]
    by_cases hc : t.availableBalance < 10
    · rw [if_pos hc]
      exact ⟨by simp [h0], by simp [h0, hc], by simp [not_le.mpr hc],
        by simp [not_le.mpr hc]⟩
    · rw [if_neg hc]
      by_cases hw : 80 < t.lockedBalance / (t.availableBalance + t.lockedBalance) * 100
      · rw [if_pos hw]
        have hr : 80 / 100 < t.lockedBalance / (t.availableBalance + t.lockedBalance) :=
          (div_lt_iff₀ h100).mpr hw
        exact ⟨by simp [h0], by simp [hc], by simp [h0, not_lt.mp hc, hr],
          by simp [not_le.mpr hr]⟩
      · rw [if_neg hw]
        have hr : t.lockedBalance / (t.availableBalance + t.lockedBalance) ≤ 80 / 100 :=
          (le_div_iff₀ h100).mpr (not_lt.mp hw)
        exact ⟨by simp [h0], by simp [hc], by simp [not_lt.mpr hr],
          by simp [h0, not_lt.mp hc, hr]⟩

/-- The kind-specific update never raises the service's invalid-amount
error: that error comes only from the zero check at the top of
`adjustBalance`. -/
theorem applyAdjustment_no_invalidAmount (t : Treasury) (a : ℚ) (ty : TxType) :
    applyAdjustment t a ty ≠ .error .invalidAmount := by
  cases ty <;> simp only [applyAdjustment] <;> (try split) <;> simp

/-- C10: for every kind except ADJUSTMENT the balance-field update applies
the absolute value of the amount, so it is insensitive to the input's
sign; and zero is the only amount the amount validation of `adjustBalance`
rejects. -/
theorem adjustBalance_sign_and_zero (t : Treasury) (a : ℚ) (ty : TxType)
    (hty : ty ≠ TxType.ADJUSTMENT) (s : LedgerState) (sid uid : Nat)
    (opts : AdjustOptions) :
    applyAdjustment t (-a) ty = applyAdjustment t a ty ∧
    (adjustBalance s sid uid opts = .error .invalidAmount ↔ opts.amount = 0) := by
  constructor
  · cases ty
    case ADJUSTMENT => exact absurd rfl hty
    all_goals simp [applyAdjustment, abs_neg]
  · constructor
    · intro h
      by_contra hne
      simp only [adjustBalance] at h
      rw [if_neg hne] at h
      split at h
      · exact absurd h (by simp)
      · split at h
        · rename_i heq
          simp only [Except.error.injEq] at h
          subst h
          exact applyAdjustment_no_invalidAmount _ _ _ heq
        · split at h
          · split at h
            · exact absurd h (by simp)
            · exact absurd h (by simp)
          · exact absurd h (by simp)
    · intro h
      simp [adjustBalance, h]

/-- C1: for the treasury found for the call, `withdraw` never succeeds when
the amount exceeds `availableBalance`; and for every positive amount within
the balance it succeeds, with `availableBalance` decreased by exactly the
amount and `totalWithdrawn` increased by exactly the amount. -/
theorem withdraw_balance_spec (s : LedgerState) (sid uid : Nat) (a : ℚ)
    (hash : Option String) (t : Treasury)
    (hfind : s.findTreasuryOwned sid uid = some t) (hv : t.saveValid) :
    (t.availableBalance < a → ∃ e, withdraw s sid uid a hash = .error e) ∧
    (0 < a → a ≤ t.availableBalance →
      ∃ s' t' tx, withdraw s sid uid a hash = .ok (s', t', tx) ∧
        t'.availableBalance = t.availableBalance - a ∧
        t'.totalWithdrawn = t.totalWithdrawn + a) := by
  constructor
  · intro hgt
    by_cases hpos : a ≤ 0
    · exact ⟨.invalidAmount, by simp only [withdraw]; rw [if_pos hpos]⟩
    · refine ⟨.insufficientBalance, ?_⟩
      simp only [withdraw, hfind]
      rw [if_neg hpos, if_pos hgt]
  · intro hpos hle
    obtain ⟨h1, h2, h3, h4, h5, h6⟩ := hv
    have hsv : Treasury.saveValid
        { t with totalWithdrawn := t.totalWithdrawn + a,
                 availableBalance := t.availableBalance - a,
                 lastWithdrawTxHash :=
                   if hash.isSome then hash else t.lastWithdrawTxHash } := by
      refine ⟨h1, ?_, ?_, h4, h5, h6⟩
      · show 0 ≤ t.totalWithdrawn + a
        linarith
      · show 0 ≤ t.availableBalance - a
        linarith
    have hcv : Transaction.createValid
        { userId := uid, strategyId := sid, type := .WITHDRAW,
          amount := -a, balanceBefore := t.availableBalance,
          balanceAfter := t.availableBalance - a, txHash := hash,
          status := if hash.isSome then .COMPLETED else .PENDING } := by
      refine ⟨?_, ?_, ?_⟩
      · show -a ≠ 0
        exact neg_ne_zero.mpr (ne_of_gt hpos)
      · show 0 ≤ t.availableBalance
        exact h3
      · show 0 ≤ t.availableBalance - a
        linarith
    exact ⟨_, _, _,
      by
        simp only [withdraw, hfind]
        rw [if_neg (not_le.mpr hpos), if_neg (not_lt.mpr hle), if_pos hsv, if_pos hcv],
      rfl, rfl⟩

/-- The success shape of `adjustBalance`: when the treasury is found, the
kind-specific update succeeds, and both mongoose validations pass, the
session commits the replaced Balance Record and the appended COMPLETED
Transaction Record carrying the caller-supplied amount. -/
theorem adjustBalance_ok (s : LedgerState) (sid uid : Nat) (a : ℚ)
    (ty : TxType) (trid : Option Nat) (hash : Option String) (t t' : Treasury)
    (hfind : s.findTreasuryOwned sid uid = some t)
    (hne : a ≠ 0)
    (happ : applyAdjustment t a ty = .ok t')
    (hsv : t'.saveValid)
    (hb : 0 ≤ t.availableBalance) (hb' : 0 ≤ t'.availableBalance) :
    adjustBalance s sid uid ⟨a, ty, trid, hash⟩ = .ok
      ({ s with treasuries := saveTreasury s.treasuries t',
                transactions := s.transactions ++
                  [{ userId := uid, strategyId := sid, type := ty, amount := a,
                     balanceBefore := t.availableBalance,
                     balanceAfter := t'.availableBalance, tradeId := trid,
                     txHash := hash, status := .COMPLETED }] },
        t',
        { userId := uid, strategyId := sid, type := ty, amount := a,
          balanceBefore := t.availableBalance, balanceAfter := t'.availableBalance,
          tradeId := trid, txHash := hash, status := .COMPLETED }) := by
  have hcv : Transaction.createValid
      { userId := uid, strategyId := sid, type := ty, amount := a,
        balanceBefore := t.availableBalance, balanceAfter := t'.availableBalance,
        tradeId := trid, txHash := hash, status := .COMPLETED } := ⟨hne, hb, hb'⟩
  simp only [adjustBalance, hfind, happ]
  rw [if_neg hne, if_pos hsv, if_pos hcv]

/-- C3: when `withdraw` is rejected for insufficient funds (requested
amount above `availableBalance`), the call returns the insufficient-funds
error, and the store — the Balance Record and the Transaction Record
collections — is left completely unchanged. -/
theorem withdraw_insufficient_rejected (s : LedgerState) (sid uid : Nat)
    (a : ℚ) (hash : Option String) (t : Treasury)
    (hfind : s.findTreasuryOwned sid uid = some t)
    (hpos : 0 < a) (hgt : t.availableBalance < a) :
    withdraw s sid uid a hash = .error .insufficientBalance ∧
    applyOp s (.wd sid uid a hash) = s := by
  have h1 : withdraw s sid uid a hash = .error .insufficientBalance := by
    simp only [withdraw, hfind]
    rw [if_neg (not_le.mpr hpos), if_pos hgt]
  exact ⟨h1, by simp [applyOp, h1]⟩

/-- After a successful `adjustBalance`, the owner-scoped lookup on the
committed state returns the updated Balance Record. -/
theorem findOwned_after_adjustBalance (s : LedgerState) (sid uid : Nat)
    (opts : AdjustOptions) (s' : LedgerState) (t' : Treasury) (tx : Transaction)
    (hok : adjustBalance s sid uid opts = .ok (s', t', tx))
    (hsid : t'.strategyId = sid) (huid : t'.userId = uid) :
    s'.findTreasuryOwned sid uid = some t' := by
  simp only [adjustBalance] at hok
  split at hok
  · exact absurd hok (by simp)
  · split at hok
    · exact absurd hok (by simp)
    · rename_i t₀ hfind₀
      split at hok
      · exact absurd hok (by simp)
      · split at hok
        · split at hok
          · simp only [Except.ok.injEq, Prod.mk.injEq] at hok
            obtain ⟨hs', ht', -⟩ := hok
            obtain ⟨-, -, hmem⟩ := findTreasuryOwned_ids hfind₀
            have hsid₀ := (List.find?_some hfind₀)
            simp only [Bool.and_eq_true, beq_iff_eq] at hsid₀
            rw [← hs', ← ht']
            unfold LedgerState.findTreasuryOwned
            exact findOwned_saveTreasury s.treasuries _ sid uid
              (ht' ▸ hsid) (ht' ▸ huid) ⟨t₀, hmem, hsid₀.1⟩
          · exact absurd hok (by simp)
        · exact absurd hok (by simp)

/-- C6: for a positive amount within the available balance, TRADE_OPEN
followed by TRADE_CLOSE with the same amount both succeed and restore
`availableBalance` and `lockedBalance` to their pre-open values. -/
theorem trade_open_close_roundtrip (s : LedgerState) (sid uid : Nat) (a : ℚ)
    (tr₁ tr₂ : Option Nat) (h₁ h₂ : Option String) (t : Treasury)
    (hfind : s.findTreasuryOwned sid uid = some t) (hv : t.saveValid)
    (hpos : 0 < a) (hle : a ≤ t.availableBalance) :
    ∃ s₁ t₁ tx₁ s₂ t₂ tx₂,
      adjustBalance s sid uid ⟨a, .TRADE_OPEN, tr₁, h₁⟩ = .ok (s₁, t₁, tx₁) ∧
      adjustBalance s₁ sid uid ⟨a, .TRADE_CLOSE, tr₂, h₂⟩ = .ok (s₂, t₂, tx₂) ∧
      t₂.availableBalance = t.availableBalance ∧
      t₂.lockedBalance = t.lockedBalance := by
  obtain ⟨hsid, huid, hmem⟩ := findTreasuryOwned_ids hfind
  obtain ⟨h1, h2, h3, h4, h5, h6⟩ := hv
  have habs : |a| = a := abs_of_pos hpos
  have hane : a ≠ 0 := ne_of_gt hpos
  have happ₁ : applyAdjustment t a .TRADE_OPEN = .ok
      { t with availableBalance := t.availableBalance - a,
               lockedBalance := t.lockedBalance + a } := by
    simp only [applyAdjustment]
    rw [habs, if_neg (not_lt.mpr hle)]
  have hsv₁ : Treasury.saveValid
      { t with availableBalance := t.availableBalance - a,
               lockedBalance := t.lockedBalance + a } := by
    refine ⟨h1, h2, ?_, ?_, h5, h6⟩
    · show 0 ≤ t.availableBalance - a
      linarith
    · show 0 ≤ t.lockedBalance + a
      linarith
  have hok₁ := adjustBalance_ok s sid uid a .TRADE_OPEN tr₁ h₁ t
    { t with availableBalance := t.availableBalance - a,
             lockedBalance := t.lockedBalance + a }
    hfind hane happ₁ hsv₁ h3 (by show 0 ≤ t.availableBalance - a; linarith)
  have hfind₂ := findOwned_after_adjustBalance _ _ _ _ _ _ _ hok₁ hsid huid
  have happ₂ : applyAdjustment
      { t with availableBalance := t.availableBalance - a,
               lockedBalance := t.lockedBalance + a } a .TRADE_CLOSE = .ok
      { t with availableBalance := t.availableBalance - a + a,
               lockedBalance := t.lockedBalance + a - a } := by
    simp only [applyAdjustment]
    rw [habs]
  have hsv₂ : Treasury.saveValid
      { t with availableBalance := t.availableBalance - a + a,
               lockedBalance := t.lockedBalance + a - a } := by
    refine ⟨h1, h2, ?_, ?_, h5, h6⟩
    · show 0 ≤ t.availableBalance - a + a
      linarith
    · show 0 ≤ t.lockedBalance + a - a
      linarith
  have hok₂ := adjustBalance_ok _ sid uid a .TRADE_CLOSE tr₂ h₂ _ _
    hfind₂ hane happ₂ hsv₂
    (by show 0 ≤ t.availableBalance - a; linarith)
    (by show 0 ≤ t.availableBalance - a + a; linarith)
  exact ⟨_, _, _, _, _, _, hok₁, hok₂,
    by show t.availableBalance - a + a = t.availableBalance; ring,
    by show t.lockedBalance + a - a = t.lockedBalance; ring⟩

/-- C7 (amended): the LOSS branch debits `availableBalance` and credits
`totalLosses` with no floor check in the service layer, but the mongoose
`min: 0` validator on `availableBalance` rejects the save when the loss
exceeds the available balance, so the session aborts instead of
committing a negative balance. -/
theorem adjust_loss_applies_or_aborts (s : LedgerState) (sid uid : Nat)
    (a : ℚ) (trid : Option Nat) (hash : Option String) (t : Treasury)
    (hfind : s.findTreasuryOwned sid uid = some t) (hv : t.saveValid)
    (hpos : 0 < a) :
    applyAdjustment t a .LOSS = .ok
      { t with totalLosses := t.totalLosses + a,
               availableBalance := t.availableBalance - a,
               netProfitLoss := t.totalProfits - (t.totalLosses + a) } ∧
    (a ≤ t.availableBalance →
      ∃ s' t' tx, adjustBalance s sid uid ⟨a, .LOSS, trid, hash⟩ = .ok (s', t', tx) ∧
        t'.totalLosses = t.totalLosses + a ∧
        t'.availableBalance = t.availableBalance - a ∧
        t'.netProfitLoss = t.totalProfits - (t.totalLosses + a)) ∧
    (t.availableBalance < a →
      adjustBalance s sid uid ⟨a, .LOSS, trid, hash⟩ = .error .validationFailed) := by
  obtain ⟨h1, h2, h3, h4, h5, h6⟩ := hv
  have habs : |a| = a := abs_of_pos hpos
  have hane : a ≠ 0 := ne_of_gt hpos
  have happ : applyAdjustment t a .LOSS = .ok
      { t with totalLosses := t.totalLosses + a,
               availableBalance := t.availableBalance - a,
               netProfitLoss := t.totalProfits - (t.totalLosses + a) } := by
    simp only [applyAdjustment]
    rw [habs]
  refine ⟨happ, ?_, ?_⟩
  · intro hle
    have hsv : Treasury.saveValid
        { t with totalLosses := t.totalLosses + a,
                 availableBalance := t.availableBalance - a,
                 netProfitLoss := t.totalProfits - (t.totalLosses + a) } := by
      refine ⟨h1, h2, ?_, h4, h5, ?_⟩
      · show 0 ≤ t.availableBalance - a
        linarith
      · show 0 ≤ t.totalLosses + a
        linarith
    exact ⟨_, _, _,
      adjustBalance_ok s sid uid a .LOSS trid hash t _ hfind hane happ hsv h3
        (by show 0 ≤ t.availableBalance - a; linarith),
      rfl, rfl, rfl⟩
  · intro hgt
    have hnsv : ¬ Treasury.saveValid
        { t with totalLosses := t.totalLosses + a,
                 availableBalance := t.availableBalance - a,
                 netProfitLoss := t.totalProfits - (t.totalLosses + a) } := by
      intro hc
      have hx : (0 : ℚ) ≤ t.availableBalance - a := hc.2.2.1
      linarith
    simp only [adjustBalance, hfind, happ]
    rw [if_neg hane, if_neg hnsv]

/-- C4 (amended): the Transaction Record written by a successful
`adjustBalance` carries the caller-supplied `options.amount` verbatim,
not the signed effect applied to `availableBalance`. -/
theorem adjustBalance_tx_amount_raw (s : LedgerState) (sid uid : Nat)
    (opts : AdjustOptions) (s' : LedgerState) (t' : Treasury) (tx : Transaction)
    (h : adjustBalance s sid uid opts = .ok (s', t', tx)) :
    tx.amount = opts.amount := by
  simp only [adjustBalance] at h
  split at h
  · exact absurd h (by simp)
  · split at h
    · exact absurd h (by simp)
    · split at h
      · exact absurd h (by simp)
      · split at h
        · split at h
          · simp only [Except.ok.injEq, Prod.mk.injEq] at h
            rw [← h.2.2]
          · exact absurd h (by simp)
        · exact absurd h (by simp)

/-- C8: `initializeTreasury` is idempotent: when a Balance Record already
exists for the strategy it is returned with the store unchanged (hence no
new Transaction Record), and a second initialize after a first — with any
caller and contract address — is a no-op on state returning the same
record. -/
theorem initializeTreasury_idempotent (s s₁ : LedgerState) (sid uid uid' : Nat)
    (addr addr' : String) (t : Treasury) :
    (s.findTreasury sid = some t → initializeTreasury s sid uid addr = .ok (s, t)) ∧
    (initializeTreasury s sid uid addr = .ok (s₁, t) →
      initializeTreasury s₁ sid uid' addr' = .ok (s₁, t)) := by
  constructor
  · intro h
    simp [initializeTreasury, h]
  · intro h
    rcases hfind : s.findTreasury sid with _ | e
    · simp only [initializeTreasury, hfind] at h
      split at h
      · simp only [Except.ok.injEq, Prod.mk.injEq] at h
        obtain ⟨hs, ht⟩ := h
        subst hs
        subst ht
        have hfind' : LedgerState.findTreasury
            { s with treasuries := s.treasuries ++ [freshTreasury sid uid addr] }
            sid = some (freshTreasury sid uid addr) := by
          unfold LedgerState.findTreasury at hfind ⊢
          rw [find?_append_of_none _ _ _ hfind]
          simp [freshTreasury]
        simp [initializeTreasury, hfind']
      · exact absurd h (by simp)
    · simp only [initializeTreasury, hfind] at h
      simp only [Except.ok.injEq, Prod.mk.injEq] at h
      obtain ⟨hs, ht⟩ := h
      subst hs
      subst ht
      simp [initializeTreasury, hfind]

/-- C5 (amended): `withdraw` and `adjustBalance` scope their Balance
Record lookup by both `strategyId` and `userId`, so a caller whose id
matches no record of the strategy changes nothing in the store;
`deposit` and `initializeTreasury`, whose lookups are scoped by
`strategyId` alone, do not have this guarantee (see the counterexample
where another owner's deposit mutates the record). -/
theorem withdraw_adjust_owner_scoped (s : LedgerState) (sid uid : Nat)
    (a : ℚ) (hash : Option String) (opts : AdjustOptions)
    (h : ∀ t ∈ s.treasuries, t.strategyId = sid → t.userId ≠ uid) :
    applyOp s (.wd sid uid a hash) = s ∧ applyOp s (.adj sid uid opts) = s := by
  have hnone : s.findTreasuryOwned sid uid = none := by
    unfold LedgerState.findTreasuryOwned
    rw [List.find?_eq_none]
    intro u hu
    simp only [Bool.and_eq_true, beq_iff_eq, not_and]
    exact h u hu
  constructor
  · by_cases ha : a ≤ 0
    · simp [applyOp, withdraw, ha]
    · simp [applyOp, withdraw, ha, hnone]
  · by_cases hz : opts.amount = 0
    · simp [applyOp, adjustBalance, hz]
    · simp [applyOp, adjustBalance, hz, hnone]

/-- Every kind-specific update of `adjustBalance` preserves the derived
`netProfitLoss` field: PROFIT and LOSS recompute it, the others leave the
three fields untouched. -/
theorem netPL_applyAdjustment {t t' : Treasury} {a : ℚ} {ty : TxType}
    (h : applyAdjustment t a ty = .ok t') (hnet : t.netPLDerived) :
    t'.netPLDerived := by
  cases ty <;> simp only [applyAdjustment] at h
  case DEPOSIT => exact absurd h (by simp)
  case WITHDRAW => exact absurd h (by simp)
  case TRADE_OPEN =>
    split at h
    · exact absurd h (by simp)
    · simp only [Except.ok.injEq] at h
      subst h
      exact hnet
  case TRADE_CLOSE =>
    simp only [Except.ok.injEq] at h
    subst h
    exact hnet
  case PROFIT =>
    simp only [Except.ok.injEq] at h
    subst h
    show t.totalProfits + |a| - t.totalLosses = t.totalProfits + |a| - t.totalLosses
    rfl
  case LOSS =>
    simp only [Except.ok.injEq] at h
    subst h
    show t.totalProfits - (t.totalLosses + |a|) = t.totalProfits - (t.totalLosses + |a|)
    rfl
  case REFUND =>
    simp only [Except.ok.injEq] at h
    subst h
    exact hnet
  case ADJUSTMENT =>
    split at h
    · exact absurd h (by simp)
    · simp only [Except.ok.injEq] at h
      subst h
      exact hnet

/-- A committed `initializeTreasury` preserves the `netProfitLoss`
invariant across the store: a created record starts at 0 = 0 − 0. -/
theorem netPL_initializeTreasury {s : LedgerState} {sid uid : Nat}
    {addr : String} {s' : LedgerState} {t₀ : Treasury}
    (hok : initializeTreasury s sid uid addr = .ok (s', t₀))
    (h : ∀ u ∈ s.treasuries, u.netPLDerived) :
    ∀ u ∈ s'.treasuries, u.netPLDerived := by
  simp only [initializeTreasury] at hok
  split at hok
  · simp only [Except.ok.injEq, Prod.mk.injEq] at hok
    obtain ⟨hs, -⟩ := hok
    subst hs
    exact h
  · split at hok
    · simp only [Except.ok.injEq, Prod.mk.injEq] at hok
      obtain ⟨hs, -⟩ := hok
      subst hs
      intro u hu
      rcases List.mem_append.mp hu with hu | hu
      · exact h u hu
      · rcases List.mem_singleton.mp hu with rfl
        show (0 : ℚ) = 0 - 0
        norm_num
    · exact absurd hok (by simp)

/-- A committed `deposit` preserves the `netProfitLoss` invariant: it
touches only the deposit and balance fields. -/
theorem netPL_deposit {s : LedgerState} {sid uid : Nat} {a : ℚ}
    {hash addr : String} {s' : LedgerState} {t' : Treasury} {tx : Transaction}
    (hok : deposit s sid uid a hash addr = .ok (s', t', tx))
    (h : ∀ u ∈ s.treasuries, u.netPLDerived) :
    ∀ u ∈ s'.treasuries, u.netPLDerived := by
  simp only [deposit] at hok
  split at hok
  · exact absurd hok (by simp)
  · split at hok
    · split at hok
      · split at hok
        · rename_i t₀ heq
          simp only [Except.ok.injEq, Prod.mk.injEq] at hok
          obtain ⟨hs, -⟩ := hok
          subst hs
          intro u hu
          rcases mem_saveTreasury hu with rfl | hu
          · have ht₀ : t₀.netPLDerived :=
              h t₀ (List.mem_of_find?_eq_some heq)
            simp only [Treasury.netPLDerived, heq, Option.getD_some]
            exact ht₀
          · exact h u hu
        · rename_i heq
          simp only [Except.ok.injEq, Prod.mk.injEq] at hok
          obtain ⟨hs, -⟩ := hok
          subst hs
          intro u hu
          rcases List.mem_append.mp hu with hu | hu
          · exact h u hu
          · rcases List.mem_singleton.mp hu with rfl
            simp only [Treasury.netPLDerived, heq, Option.getD_none, freshTreasury]
            norm_num
      · exact absurd hok (by simp)
    · exact absurd hok (by simp)

/-- A committed `withdraw` preserves the `netProfitLoss` invariant: it
touches only the withdrawal and balance fields. -/
theorem netPL_withdraw {s : LedgerState} {sid uid : Nat} {a : ℚ}
    {hash : Option String} {s' : LedgerState} {t' : Treasury} {tx : Transaction}
    (hok : withdraw s sid uid a hash = .ok (s', t', tx))
    (h : ∀ u ∈ s.treasuries, u.netPLDerived) :
    ∀ u ∈ s'.treasuries, u.netPLDerived := by
  cases hash
  all_goals
    simp only [withdraw, Option.isSome_none, Option.isSome_some,
      Bool.false_eq_true, if_false, if_true] at hok
  all_goals
    split at hok
    · exact absurd hok (by simp)
    · split at hok
      · exact absurd hok (by simp)
      · rename_i t₀ heq
        split at hok
        · exact absurd hok (by simp)
        · split at hok
          · split at hok
            · simp only [Except.ok.injEq, Prod.mk.injEq] at hok
              obtain ⟨hs, -⟩ := hok
              subst hs
              intro u hu
              rcases mem_saveTreasury hu with rfl | hu
              · have ht₀ : t₀.netPLDerived :=
                  h t₀ (findTreasuryOwned_ids heq).2.2
                exact ht₀
              · exact h u hu
            · exact absurd hok (by simp)
          · exact absurd hok (by simp)

/-- A committed `adjustBalance` preserves the `netProfitLoss` invariant,
by `netPL_applyAdjustment` for the record it rewrites. -/
theorem netPL_adjustBalance {s : LedgerState} {sid uid : Nat}
    {opts : AdjustOptions} {s' : LedgerState} {t' : Treasury} {tx : Transaction}
    (hok : adjustBalance s sid uid opts = .ok (s', t', tx))
    (h : ∀ u ∈ s.treasuries, u.netPLDerived) :
    ∀ u ∈ s'.treasuries, u.netPLDerived := by
  simp only [adjustBalance] at hok
  split at hok
  · exact absurd hok (by simp)
  · split at hok
    · exact absurd hok (by simp)
    · rename_i t₀ heq
      split at hok
      · exact absurd hok (by simp)
      · rename_i t₁ happ
        split at hok
        · split at hok
          · simp only [Except.ok.injEq, Prod.mk.injEq] at hok
            obtain ⟨hs, -⟩ := hok
            subst hs
            intro u hu
            rcases mem_saveTreasury hu with rfl | hu
            · exact netPL_applyAdjustment happ
                (h t₀ (findTreasuryOwned_ids heq).2.2)
            · exact h u hu
          · exact absurd hok (by simp)
        · exact absurd hok (by simp)

/-- One step of any treasury operation — committed or aborted — preserves
the `netProfitLoss` invariant across the store. -/
theorem netPL_applyOp (s : LedgerState) (op : TreasuryOp)
    (h : ∀ u ∈ s.treasuries, u.netPLDerived) :
    ∀ u ∈ (applyOp s op).treasuries, u.netPLDerived := by
  cases op with
  | init sid uid addr =>
    simp only [applyOp]
    rcases hok : initializeTreasury s sid uid addr with e | ⟨s', t₀⟩
    · exact h
    · exact netPL_initializeTreasury hok h
  | dep sid uid a hash addr =>
    simp only [applyOp]
    rcases hok : deposit s sid uid a hash addr with e | ⟨s', t', tx⟩
    · exact h
    · exact netPL_deposit hok h
  | wd sid uid a hash =>
    simp only [applyOp]
    rcases hok : withdraw s sid uid a hash with e | ⟨s', t', tx⟩
    · exact h
    · exact netPL_withdraw hok h
  | adj sid uid opts =>
    simp only [applyOp]
    rcases hok : adjustBalance s sid uid opts with e | ⟨s', t', tx⟩
    · exact h
    · exact netPL_adjustBalance hok h

/-- C2: after every sequence of treasury operations (initializeTreasury,
deposit, withdraw, adjustBalance of any kind), every Balance Record in
the store satisfies `netProfitLoss = totalProfits − totalLosses`,
provided every record satisfied it initially (as a freshly created store,
or any store built by these operations, does). -/
theorem netPL_invariant_runOps (s : LedgerState) (ops : List TreasuryOp)
    (h : ∀ u ∈ s.treasuries, u.netPLDerived) :
    ∀ u ∈ (runOps s ops).treasuries, u.netPLDerived := by
  induction ops generalizing s with
  | nil => exact h
  | cons op rest ih => exact ih _ (netPL_applyOp s op h)

/-! ### Counterexamples -/

/-- C4 is refuted at a concrete input: a LOSS adjustment of magnitude 30
on a treasury holding 100 writes a Transaction Record whose `amount` is
+30 — the caller-supplied input — even though the applied effect on
`availableBalance` was −30 (`balanceBefore` 100, `balanceAfter` 70); the
claim requires the recorded amount to be −30. -/
theorem adjust_loss_records_positive_amount :
    (adjustBalance sampleState 1 10 ⟨30, .LOSS, none, none⟩).toOption.map
      (fun r => (r.2.2.amount, r.2.2.balanceBefore, r.2.2.balanceAfter)) =
      some (30, 100, 70) ∧
    (adjustBalance sampleState 1 10 ⟨30, .LOSS, none, none⟩).toOption.map
      (fun r => r.2.2.amount) ≠ some (-(30 : ℚ)) := by
  constructor <;>
    norm_num [adjustBalance, applyAdjustment, sampleState, sampleTreasury,
      freshTreasury, LedgerState.findTreasuryOwned, Treasury.saveValid,
      Transaction.createValid, saveTreasury, Except.toOption,
      abs_of_pos (show (0 : ℚ) < 30 by norm_num)]

/-- C5 is refuted at a concrete input: strategy 1's Balance Record belongs
to user 10, yet a deposit invoked with user 20's id succeeds, returns
user 10's record, and commits it mutated (balance 100 → 150): `deposit`
scopes its lookup by `strategyId` alone. -/
theorem deposit_cross_owner_mutates :
    (deposit sampleState 1 20 50 "0xh" "0xbbb").toOption.map
      (fun r => (r.2.1.userId, r.2.1.availableBalance, r.2.1.totalDeposited)) =
      some (10, 150, 150) ∧
    (deposit sampleState 1 20 50 "0xh" "0xbbb").toOption.map
      (fun r => r.1.treasuries.map (fun u => (u.userId, u.availableBalance))) =
      some [(10, 150)] := by
  constructor <;>
    norm_num [deposit, sampleState, sampleTreasury, freshTreasury,
      LedgerState.findTreasury, Treasury.saveValid, Transaction.createValid,
      saveTreasury, Except.toOption]

/-- C7 is refuted at a concrete input: a LOSS of 150 against an available
balance of 100 does not commit with a negative balance — the mongoose
`min: 0` validator rejects the save and the whole operation aborts. -/
theorem adjust_loss_overdraw_aborts :
    adjustBalance sampleState 1 10 ⟨150, .LOSS, none, none⟩ =
      .error .validationFailed := by
  norm_num [adjustBalance, applyAdjustment, sampleState, sampleTreasury,
    freshTreasury, LedgerState.findTreasuryOwned, Treasury.saveValid,
    abs_of_pos (show (0 : ℚ) < 150 by norm_num)]

/-! ### Witnesses -/

/-- Witness for C1 at strategy 1, owner 10, amount 40. -/
theorem withdraw_balance_spec_witness :
    (sampleTreasury.availableBalance < 40 →
      ∃ e, withdraw sampleState 1 10 40 none = .error e) ∧
    (0 < (40 : ℚ) → (40 : ℚ) ≤ sampleTreasury.availableBalance →
      ∃ s' t' tx, withdraw sampleState 1 10 40 none = .ok (s', t', tx) ∧
        t'.availableBalance = sampleTreasury.availableBalance - 40 ∧
        t'.totalWithdrawn = sampleTreasury.totalWithdrawn + 40) :=
  withdraw_balance_spec sampleState 1 10 40 none sampleTreasury
    (by norm_num [LedgerState.findTreasuryOwned, sampleState, sampleTreasury,
      freshTreasury])
    (by norm_num [Treasury.saveValid, sampleTreasury, freshTreasury])

/-- Witness for C2: a profit adjustment of 30 on the sample store yields a
store whose record satisfies the derived-field invariant. -/
theorem netPL_invariant_runOps_witness :
    Treasury.netPLDerived
      { strategyId := 1, userId := 10, totalDeposited := 100,
        totalWithdrawn := 0, availableBalance := 130, lockedBalance := 0,
        totalProfits := 30, totalLosses := 0, netProfitLoss := 30,
        contractAddress := "0xaaa" } :=
  netPL_invariant_runOps sampleState [.adj 1 10 ⟨30, .PROFIT, none, none⟩]
    (by
      intro u hu
      simp only [sampleState, List.mem_singleton] at hu
      subst hu
      norm_num [Treasury.netPLDerived, sampleTreasury, freshTreasury])
    _
    (by
      norm_num [runOps, applyOp, adjustBalance, applyAdjustment, sampleState,
        sampleTreasury, freshTreasury, LedgerState.findTreasuryOwned,
        Treasury.saveValid, Transaction.createValid, saveTreasury,
        abs_of_pos (show (0 : ℚ) < 30 by norm_num)])

/-- Witness for C3 at strategy 1, owner 10, amount 150 over a 100 balance. -/
theorem withdraw_insufficient_rejected_witness :
    withdraw sampleState 1 10 150 none = .error .insufficientBalance ∧
    applyOp sampleState (.wd 1 10 150 none) = sampleState :=
  withdraw_insufficient_rejected sampleState 1 10 150 none sampleTreasury
    (by norm_num [LedgerState.findTreasuryOwned, sampleState, sampleTreasury,
      freshTreasury])
    (by norm_num)
    (by norm_num [sampleTreasury, freshTreasury])

/-- Witness for the amended C4 at the concrete LOSS run of magnitude 30. -/
theorem adjustBalance_tx_amount_raw_witness :
    Transaction.amount
      { userId := 10, strategyId := 1, type := .LOSS, amount := 30,
        balanceBefore := 100, balanceAfter := 70, tradeId := none,
        txHash := none, status := .COMPLETED } =
      AdjustOptions.amount ⟨30, .LOSS, none, none⟩ :=
  adjustBalance_tx_amount_raw sampleState 1 10 ⟨30, .LOSS, none, none⟩
    { strategies := [{ id := 1, userId := 10 }],
      treasuries := [{ strategyId := 1, userId := 10, totalDeposited := 100,
                       totalWithdrawn := 0, availableBalance := 70,
                       lockedBalance := 0, totalProfits := 0,
                       totalLosses := 30, netProfitLoss := -30,
                       contractAddress := "0xaaa" }],
      transactions := [{ userId := 10, strategyId := 1, type := .LOSS,
                         amount := 30, balanceBefore := 100, balanceAfter := 70,
                         tradeId := none, txHash := none,
                         status := .COMPLETED }] }
    { strategyId := 1, userId := 10, totalDeposited := 100,
      totalWithdrawn := 0, availableBalance := 70, lockedBalance := 0,
      totalProfits := 0, totalLosses := 30, netProfitLoss := -30,
      contractAddress := "0xaaa" }
    { userId := 10, strategyId := 1, type := .LOSS, amount := 30,
      balanceBefore := 100, balanceAfter := 70, tradeId := none,
      txHash := none, status := .COMPLETED }
    (by norm_num [adjustBalance, applyAdjustment, sampleState, sampleTreasury,
      freshTreasury, LedgerState.findTreasuryOwned, Treasury.saveValid,
      Transaction.createValid, saveTreasury,
      abs_of_pos (show (0 : ℚ) < 30 by norm_num)])

/-- Witness for the amended C5: user 20 holds no record on strategy 1, so
their withdraw and adjust calls leave the store untouched. -/
theorem withdraw_adjust_owner_scoped_witness :
    applyOp sampleState (.wd 1 20 5 none) = sampleState ∧
    applyOp sampleState (.adj 1 20 ⟨5, .PROFIT, none, none⟩) = sampleState :=
  withdraw_adjust_owner_scoped sampleState 1 20 5 none ⟨5, .PROFIT, none, none⟩
    (by simp [sampleState, sampleTreasury, freshTreasury])

/-- Witness for C6 at amount 50 against the 100-balance sample treasury. -/
theorem trade_open_close_roundtrip_witness :
    ∃ s₁ t₁ tx₁ s₂ t₂ tx₂,
      adjustBalance sampleState 1 10 ⟨50, .TRADE_OPEN, none, none⟩ =
        .ok (s₁, t₁, tx₁) ∧
      adjustBalance s₁ 1 10 ⟨50, .TRADE_CLOSE, none, none⟩ =
        .ok (s₂, t₂, tx₂) ∧
      t₂.availableBalance = sampleTreasury.availableBalance ∧
      t₂.lockedBalance = sampleTreasury.lockedBalance :=
  trade_open_close_roundtrip sampleState 1 10 50 none none none none
    sampleTreasury
    (by norm_num [LedgerState.findTreasuryOwned, sampleState, sampleTreasury,
      freshTreasury])
    (by norm_num [Treasury.saveValid, sampleTreasury, freshTreasury])
    (by norm_num)
    (by norm_num [sampleTreasury, freshTreasury])

/-- Witness for the amended C7 at a LOSS of magnitude 30. -/
theorem adjust_loss_applies_or_aborts_witness :
    applyAdjustment sampleTreasury 30 .LOSS = .ok
      { sampleTreasury with
          totalLosses := sampleTreasury.totalLosses + 30,
          availableBalance := sampleTreasury.availableBalance - 30,
          netProfitLoss :=
            sampleTreasury.totalProfits - (sampleTreasury.totalLosses + 30) } ∧
    ((30 : ℚ) ≤ sampleTreasury.availableBalance →
      ∃ s' t' tx,
        adjustBalance sampleState 1 10 ⟨30, .LOSS, none, none⟩ =
          .ok (s', t', tx) ∧
        t'.totalLosses = sampleTreasury.totalLosses + 30 ∧
        t'.availableBalance = sampleTreasury.availableBalance - 30 ∧
        t'.netProfitLoss =
          sampleTreasury.totalProfits - (sampleTreasury.totalLosses + 30)) ∧
    (sampleTreasury.availableBalance < 30 →
      adjustBalance sampleState 1 10 ⟨30, .LOSS, none, none⟩ =
        .error .validationFailed) :=
  adjust_loss_applies_or_aborts sampleState 1 10 30 none none sampleTreasury
    (by norm_num [LedgerState.findTreasuryOwned, sampleState, sampleTreasury,
      freshTreasury])
    (by norm_num [Treasury.saveValid, sampleTreasury, freshTreasury])
    (by norm_num)

/-- Witness for C8: both initialize calls return the existing record with
the store unchanged. -/
theorem initializeTreasury_idempotent_witness :
    initializeTreasury sampleState 1 10 "0xaaa" = .ok (sampleState, sampleTreasury) ∧
    initializeTreasury sampleState 1 11 "0xccc" = .ok (sampleState, sampleTreasury) := by
  have h := initializeTreasury_idempotent sampleState sampleState 1 10 11
    "0xaaa" "0xccc" sampleTreasury
  have h1 := h.1 (by norm_num [LedgerState.findTreasury, sampleState,
    sampleTreasury, freshTreasury])
  exact ⟨h1, h.2 h1⟩

/-- Witness for C9 at the sample treasury. -/
theorem getTreasuryHealth_status_spec_witness :
    (getTreasuryHealthStatus sampleTreasury = .EMPTY ↔
      sampleTreasury.availableBalance + sampleTreasury.lockedBalance = 0) ∧
    (getTreasuryHealthStatus sampleTreasury = .CRITICAL ↔
      sampleTreasury.availableBalance + sampleTreasury.lockedBalance ≠ 0 ∧
      sampleTreasury.availableBalance < 10) ∧
    (getTreasuryHealthStatus sampleTreasury = .WARNING ↔
      sampleTreasury.availableBalance + sampleTreasury.lockedBalance ≠ 0 ∧
      10 ≤ sampleTreasury.availableBalance ∧
      80 / 100 < sampleTreasury.lockedBalance /
        (sampleTreasury.availableBalance + sampleTreasury.lockedBalance)) ∧
    (getTreasuryHealthStatus sampleTreasury = .HEALTHY ↔
      sampleTreasury.availableBalance + sampleTreasury.lockedBalance ≠ 0 ∧
      10 ≤ sampleTreasury.availableBalance ∧
      sampleTreasury.lockedBalance /
        (sampleTreasury.availableBalance + sampleTreasury.lockedBalance) ≤
        80 / 100) :=
  getTreasuryHealth_status_spec sampleTreasury
    (by norm_num [Treasury.saveValid, sampleTreasury, freshTreasury])

/-- Witness for C10 at the LOSS kind and amount 7, with the zero check
exercised on a PROFIT call of amount 0. -/
theorem adjustBalance_sign_and_zero_witness :
    applyAdjustment sampleTreasury (-7) .LOSS =
      applyAdjustment sampleTreasury 7 .LOSS ∧
    (adjustBalance sampleState 1 10 ⟨0, .PROFIT, none, none⟩ =
        .error .invalidAmount ↔
      (⟨0, .PROFIT, none, none⟩ : AdjustOptions).amount = 0) :=
  adjustBalance_sign_and_zero sampleTreasury 7 .LOSS (by decide)
    sampleState 1 10 ⟨0, .PROFIT, none, none⟩

end Soros
